import Mathlib

/-!
# Verification of the yojimbo serialize layer (`yojimbo_serialize.h`)

A shallow embedding of the unified serialize directives of `yojimbo_serialize.h`.
Every serialize directive of the header is embedded three times, once per stream
mode (Write / Read / Measure), with the `Stream::IsWriting` / `Stream::IsReading`
branches of the source resolved for that mode:

* `..._write` functions return the list of bits the directive emits;
* `..._read` functions consume a list of bits and return `none` on decode failure
  (the `return false` paths of the source);
* `..._measure` functions return the bit count the measure stream accumulates.

Write-side `yojimbo_assert` preconditions are modelled as separate `..._assert`
predicates (the assertions compile out in release builds, so the behaviour
functions are assert-free, matching release semantics).

The underlying bit-stream engine (`yojimbo_stream.h` / `yojimbo_bitpack.h`) and
the network-address collaborator (`yojimbo_address.h`) are external to this
header; they are modelled from the spec's Bit-Stream Contract, as noted on each
of their definitions.
-/

namespace Yojimbo

/-- Modelled from the spec: the Bit-Stream Contract's `SerializeBits` writes an
unsigned value using exactly `bits` bits.  The wire is modelled as a list of
booleans; a bit-run is emitted least-significant bit first (the internal bit
order is not fixed by the spec, only that read mirrors write and that the bit
count is exact). -/
def natToBits (value : Nat) : Nat → List Bool
  | 0 => []
  | bits + 1 => (value % 2 == 1) :: natToBits (value / 2) bits

/-- Decode a bit-run (least-significant bit first) back into a `Nat`. -/
def bitsToNat : List Bool → Nat
  | [] => 0
  | b :: rest => (if b then 1 else 0) + 2 * bitsToNat rest

/-- Modelled from the spec: the Read-mode stream delivers the next `bits` bits of
the buffer, failing when the buffer is exhausted (truncated input). -/
def readBits (s : List Bool) (bits : Nat) : Option (Nat × List Bool) :=
  if bits ≤ s.length then some (bitsToNat (s.take bits), s.drop bits) else none

/-- Floor base-two logarithm, structurally recursive on a fuel argument so that
it evaluates by kernel reduction.  `log2fuel fuel n` agrees with `Nat.log2 n`
whenever `n ≤ fuel`. -/
def log2fuel : Nat → Nat → Nat
  | 0, _ => 0
  | fuel + 1, n => if 2 ≤ n then log2fuel fuel (n / 2) + 1 else 0

/-- Modelled from the spec: the minimum number of bits needed to represent the
values `0 .. n` (the Bit-Stream Contract's `SerializeInteger` encodes a value in
`[min,max]` using the minimum bits needed for that range, i.e.
`bitsRequired (max - min)` bits). -/
def bitsRequired (n : Nat) : Nat :=
  if n = 0 then 0 else log2fuel n n + 1

theorem natToBits_length (value bits : Nat) : (natToBits value bits).length = bits := by
  induction bits generalizing value with
  | zero => rfl
  | succ b ih => simp [natToBits, ih]

theorem bitsToNat_natToBits (value bits : Nat) :
    bitsToNat (natToBits value bits) = value % 2 ^ bits := by
  induction bits generalizing value with
  | zero => simp [natToBits, bitsToNat]; omega
  | succ b ih =>
    simp only [natToBits, bitsToNat, ih]
    have h2 : value % 2 ^ (b + 1) = value % 2 + 2 * (value / 2 % 2 ^ b) := by
      rw [pow_succ, mul_comm (2 ^ b) 2, Nat.mod_mul]
    rw [h2]
    rcases Nat.mod_two_eq_zero_or_one value with h | h <;> simp [h]

theorem take_append_of_length {α : Type} (l r : List α) (n : Nat) (h : l.length = n) :
    (l ++ r).take n = l := by
  subst h; exact List.take_left l r

theorem drop_append_of_length {α : Type} (l r : List α) (n : Nat) (h : l.length = n) :
    (l ++ r).drop n = r := by
  subst h; exact List.drop_left l r

/-- Reading back exactly the bits written by a bit-run recovers the value modulo
`2 ^ bits`, leaving the rest of the buffer untouched. -/
theorem readBits_append (value bits : Nat) (rest : List Bool) :
    readBits (natToBits value bits ++ rest) bits = some (value % 2 ^ bits, rest) := by
  have hlen := natToBits_length value bits
  unfold readBits
  rw [if_pos (by simp [hlen])]
  rw [take_append_of_length _ _ _ hlen, drop_append_of_length _ _ _ hlen,
    bitsToNat_natToBits]

/-- The fuel-based logarithm computes an exponent whose successor power of two bounds `n`,
for any sufficient fuel. -/
theorem lt_two_pow_log2fuel (fuel n : Nat) (h : n ≤ fuel) :
    n < 2 ^ (log2fuel fuel n + 1) := by
  induction fuel generalizing n with
  | zero => simp [log2fuel]; omega
  | succ f ih =>
    unfold log2fuel
    by_cases h2 : 2 ≤ n
    · rw [if_pos h2]
      have hrec := ih (n / 2) (by omega)
      have : n < 2 * (n / 2 + 1) := by omega
      calc n < 2 * (n / 2 + 1) := this
        _ ≤ 2 * 2 ^ (log2fuel f (n / 2) + 1) := by
            have : n / 2 + 1 ≤ 2 ^ (log2fuel f (n / 2) + 1) := by omega
            omega
        _ = 2 ^ (log2fuel f (n / 2) + 1 + 1) := by ring
    · rw [if_neg h2]
      have : n < 2 := by omega
      simpa using this

/-- Every `n` fits in `bitsRequired n` bits. -/
theorem lt_two_pow_bitsRequired (n : Nat) : n < 2 ^ bitsRequired n := by
  unfold bitsRequired
  by_cases h : n = 0
  · simp [h]
  · rw [if_neg h]
    exact lt_two_pow_log2fuel n n (Nat.le_refl n)

/-! ## The Bit-Stream Contract's bounded-integer primitive (modelled from the spec) -/

/-- Modelled from the spec: the Write-mode stream's `SerializeInteger` encodes a
signed integer constrained to `[min,max]` using the minimum bits needed for that
range; the wire carries `value - min` in `bitsRequired (max - min)` bits. -/
def writeStreamInteger (value min max : Int) : List Bool :=
  natToBits (value - min).toNat (bitsRequired (max - min).toNat)

/-- Modelled from the spec: the Read-mode stream's `SerializeInteger` reads
`bitsRequired (max - min)` bits and delivers `min` plus the decoded pattern.
The delivered value can exceed `max` (an over-long bit pattern); rejecting it is
the caller's responsibility (the `serialize_int` macro's range check). -/
def readStreamInteger (s : List Bool) (min max : Int) : Option (Int × List Bool) :=
  (readBits s (bitsRequired (max - min).toNat)).bind fun pr =>
    some (min + (pr.1 : Int), pr.2)

/-- Modelled from the spec: the Measure-mode stream's `SerializeInteger` counts
the bit cost of the range `[min,max]`. -/
def measureStreamInteger (min max : Int) : Nat :=
  bitsRequired (max - min).toNat

/-! ## `serialize_int` (the macro at `yojimbo_serialize.h:34`) -/

/-- Write mode of the `serialize_int` macro: delegates the value to the stream's
bounded-integer primitive. -/
def serialize_int_write (value min max : Int) : List Bool :=
  writeStreamInteger value min max

/-- Write-side assertions of the `serialize_int` macro: `min < max` and
`value ∈ [min,max]` (fatal programming errors when violated). -/
def serialize_int_write_assert (value min max : Int) : Prop :=
  min < max ∧ min ≤ value ∧ value ≤ max

/-- Read mode of the `serialize_int` macro: decodes a bounded integer and
returns a decode failure (`none`, the source's `return false`) when the decoded
value lies outside `[min,max]`. -/
def serialize_int_read (s : List Bool) (min max : Int) : Option (Int × List Bool) :=
  (readStreamInteger s min max).bind fun vr =>
    if vr.1 < min ∨ vr.1 > max then none else some vr

/-- Measure mode of the `serialize_int` macro. -/
def serialize_int_measure (min max : Int) : Nat :=
  measureStreamInteger min max

/-! ## `serialize_bits` (the macro at `yojimbo_serialize.h:70`) -/

/-- Write mode of the `serialize_bits` macro: writes the low `bits` bits of the
value (the `(uint32_t) value` cast followed by a `bits`-wide run). -/
def serialize_bits_write (value bits : Nat) : List Bool :=
  natToBits value bits

/-- Write/read-side assertions of the `serialize_bits` macro: `bits ∈ [1,32]`. -/
def serialize_bits_assert (bits : Nat) : Prop :=
  0 < bits ∧ bits ≤ 32

/-- Read mode of the `serialize_bits` macro. -/
def serialize_bits_read (s : List Bool) (bits : Nat) : Option (Nat × List Bool) :=
  readBits s bits

/-- Measure mode of the `serialize_bits` macro. -/
def serialize_bits_measure (bits : Nat) : Nat := bits

/-! ## `serialize_bool` (the macro at `yojimbo_serialize.h:97`) -/

/-- Write mode of the `serialize_bool` macro: a one-bit run carrying 0 or 1. -/
def serialize_bool_write (value : Bool) : List Bool :=
  serialize_bits_write (if value then 1 else 0) 1

/-- Read mode of the `serialize_bool` macro: reads a one-bit run and coerces it
to a boolean (`uint32_bool_value ? true : false`). -/
def serialize_bool_read (s : List Bool) : Option (Bool × List Bool) :=
  (serialize_bits_read s 1).bind fun vr => some (vr.1 != 0, vr.2)

/-- Measure mode of the `serialize_bool` macro. -/
def serialize_bool_measure : Nat := serialize_bits_measure 1

/-! ## `serialize_float_internal` (`yojimbo_serialize.h:108`)

The float is transmitted as its exact 4-byte IEEE-754 bit pattern, reinterpreted
as a 32-bit unsigned run (`memcpy` both ways); the embedding therefore
represents the float by that 32-bit pattern, which is exactly what the claims'
"bit-for-bit" fidelity is about. -/

/-- Write mode of `serialize_float_internal`: the 32-bit pattern verbatim. -/
def serialize_float_write (pattern : Nat) : List Bool :=
  serialize_bits_write pattern 32

/-- Read mode of `serialize_float_internal`: 32 raw bits back into the pattern. -/
def serialize_float_read (s : List Bool) : Option (Nat × List Bool) :=
  serialize_bits_read s 32

/-- Measure mode of `serialize_float_internal`. -/
def serialize_float_measure : Nat := serialize_bits_measure 32

/-! ## `serialize_uint32` (the macro at `yojimbo_serialize.h:156`) -/

/-- Write mode of the `serialize_uint32` macro: a 32-bit run. -/
def serialize_uint32_write (value : Nat) : List Bool :=
  serialize_bits_write value 32

/-- Read mode of the `serialize_uint32` macro. -/
def serialize_uint32_read (s : List Bool) : Option (Nat × List Bool) :=
  serialize_bits_read s 32

/-- Measure mode of the `serialize_uint32` macro. -/
def serialize_uint32_measure : Nat := serialize_bits_measure 32

/-! ## `serialize_uint64_internal` (`yojimbo_serialize.h:159`) -/

/-- Write mode of `serialize_uint64_internal`: splits the value into its low and
high 32-bit halves and writes the low half first, then the high half. -/
def serialize_uint64_write (value : Nat) : List Bool :=
  serialize_bits_write (value % 2 ^ 32) 32 ++ serialize_bits_write (value / 2 ^ 32) 32

/-- Read mode of `serialize_uint64_internal`: reads two 32-bit runs in the same
order and reassembles `(hi <<< 32) ||| lo`. -/
def serialize_uint64_read (s : List Bool) : Option (Nat × List Bool) :=
  (serialize_bits_read s 32).bind fun lo =>
    (serialize_bits_read lo.2 32).bind fun hi =>
      some (hi.1 * 2 ^ 32 + lo.1, hi.2)

/-- Measure mode of `serialize_uint64_internal`. -/
def serialize_uint64_measure : Nat := serialize_bits_measure 32 + serialize_bits_measure 32

/-! ## `serialize_double_internal` (`yojimbo_serialize.h:194`)

As for floats, the double travels as its 8-byte IEEE-754 bit pattern (a union
reinterpretation), delegated to the 64-bit-integer directive; the embedding
represents the double by that 64-bit pattern. -/

/-- Write mode of `serialize_double_internal`. -/
def serialize_double_write (pattern : Nat) : List Bool :=
  serialize_uint64_write pattern

/-- Read mode of `serialize_double_internal`. -/
def serialize_double_read (s : List Bool) : Option (Nat × List Bool) :=
  serialize_uint64_read s

/-- Measure mode of `serialize_double_internal`. -/
def serialize_double_measure : Nat := serialize_uint64_measure

/-! ## `serialize_bytes_internal` (`yojimbo_serialize.h:234`) -/

/-- Modelled from the spec: the Bit-Stream Contract's `SerializeBytes` writes a
raw byte run, eight bits per byte. -/
def serialize_bytes_write (data : List Nat) : List Bool :=
  (data.map fun b => natToBits b 8).flatten

/-- Read mode of `serialize_bytes_internal`: reads `bytes` raw bytes. -/
def serialize_bytes_read (s : List Bool) : Nat → Option (List Nat × List Bool)
  | 0 => some ([], s)
  | n + 1 =>
    (readBits s 8).bind fun b =>
      (serialize_bytes_read b.2 n).bind fun rest =>
        some (b.1 :: rest.1, rest.2)

/-- Measure mode of `serialize_bytes_internal`: `length × 8` bits. -/
def serialize_bytes_measure (bytes : Nat) : Nat := 8 * bytes

/-! ## `serialize_string_internal` (`yojimbo_serialize.h:260`)

The in-memory C string is modelled as the list of its bytes before the
terminator, so `strlen` is the list length.  The write side serializes the
length as a bounded integer in `[0, buffer_size - 1]` and then the raw bytes
(no terminator on the wire); the read side decodes the length (failing when it
is out of that range), decodes that many bytes, and null-terminates the buffer
(the decoded string content is exactly the decoded byte list). -/

/-- Write mode of `serialize_string_internal`. -/
def serialize_string_write (data : List Nat) (buffer_size : Int) : List Bool :=
  serialize_int_write (data.length : Int) 0 (buffer_size - 1) ++ serialize_bytes_write data

/-- Write-side assertion of `serialize_string_internal`:
`yojimbo_assert( length < buffer_size - 1 )`. -/
def serialize_string_write_assert (data : List Nat) (buffer_size : Int) : Prop :=
  (data.length : Int) < buffer_size - 1

/-- Read mode of `serialize_string_internal`. -/
def serialize_string_read (s : List Bool) (buffer_size : Int) : Option (List Nat × List Bool) :=
  (serialize_int_read s 0 (buffer_size - 1)).bind fun len =>
    serialize_bytes_read len.2 len.1.toNat

/-- Measure mode of `serialize_string_internal`: under Measure neither
`IsWriting` nor `IsReading` holds, so `length` keeps its initialiser `0`; the
measure stream counts the length field for the range `[0, buffer_size - 1]` and
then zero bytes of content. -/
def serialize_string_measure (buffer_size : Int) : Nat :=
  serialize_int_measure 0 (buffer_size - 1) + serialize_bytes_measure 0

/-! ## `serialize_address_internal` (`yojimbo_serialize.h:355`)

Modelled from the spec: network-address parsing and formatting live in the
external `yojimbo_address.h` collaborator, consumed only through `ToString`,
`Parse` and `IsValid`, with a fixed shared maximum textual length.  An address
is represented here by its textual form; `ToString` and `Parse` are the identity
on that representation, and a valid address is one whose nonempty text (of
nonzero bytes) fits the shared fixed-capacity buffer together with its
terminator and the string directive's write-side bound. -/

/-- Modelled from the spec: the fixed shared maximum textual length of an
address (`MaxAddressLength`). -/
def MaxAddressLength : Nat := 256

/-- Modelled from the spec: an address, represented by its textual form. -/
structure Address where
  text : List Nat
  deriving DecidableEq

/-- Modelled from the spec: `Address::IsValid`. -/
def Address.IsValid (a : Address) : Bool :=
  !a.text.isEmpty && a.text.length + 1 < MaxAddressLength
    && a.text.all fun b => 0 < b && b < 256

/-- Write mode of `serialize_address_internal`: formats the address into a
`MaxAddressLength`-byte buffer and transmits it with the string directive. -/
def serialize_address_write (a : Address) : List Bool :=
  serialize_string_write a.text (MaxAddressLength : Int)

/-- Write-side assertion of `serialize_address_internal`:
`yojimbo_assert( address.IsValid() )`. -/
def serialize_address_write_assert (a : Address) : Prop :=
  a.IsValid = true

/-- Read mode of `serialize_address_internal`: decodes the text with the string
directive, parses it, and fails when the parsed address is invalid. -/
def serialize_address_read (s : List Bool) : Option (Address × List Bool) :=
  (serialize_string_read s (MaxAddressLength : Int)).bind fun tr =>
    if (Address.mk tr.1).IsValid then some (Address.mk tr.1, tr.2) else none

/-- Measure mode of `serialize_address_internal`. -/
def serialize_address_measure : Nat :=
  serialize_string_measure (MaxAddressLength : Int)

/-! ## `serialize_int_relative_internal` (`yojimbo_serialize.h:397`)

The delta codec.  The template parameter `T` is instantiated at `uint32_t`
(the instantiation this header itself uses, via
`serialize_sequence_relative_internal`), so values are naturals below `2 ^ 32`
and `T` arithmetic wraps modulo `2 ^ 32`. -/

/-- The `uint32_t` subtraction `current - previous` computing the difference. -/
def usub32 (a b : Nat) : Nat := (a + 2 ^ 32 - b) % 2 ^ 32

/-- The `uint32_t` addition `previous + difference` on the read side. -/
def uadd32 (a b : Nat) : Nat := (a + b) % 2 ^ 32

/-- Write-side assertion of `serialize_int_relative_internal`:
`yojimbo_assert( previous < current )`. -/
def int_relative_write_assert (previous current : Nat) : Prop :=
  previous < current

/-- Write mode of `serialize_int_relative_internal`: tries the six escalating
buckets in order; for each bucket one flag bit is written, and the first
matching bucket's flag is true and is followed by that bucket's bounded-integer
payload; if no bucket matches, all six flags are false and the raw 32-bit
current value follows. -/
def serialize_int_relative_write (previous current : Nat) : List Bool :=
  let difference := usub32 current previous
  if difference = 1 then
    serialize_bool_write true
  else if difference ≤ 6 then
    serialize_bool_write false ++ serialize_bool_write true
      ++ serialize_int_write (difference : Int) 2 6
  else if difference ≤ 23 then
    serialize_bool_write false ++ serialize_bool_write false ++ serialize_bool_write true
      ++ serialize_int_write (difference : Int) 7 23
  else if difference ≤ 280 then
    serialize_bool_write false ++ serialize_bool_write false ++ serialize_bool_write false
      ++ serialize_bool_write true ++ serialize_int_write (difference : Int) 24 280
  else if difference ≤ 4377 then
    serialize_bool_write false ++ serialize_bool_write false ++ serialize_bool_write false
      ++ serialize_bool_write false ++ serialize_bool_write true
      ++ serialize_int_write (difference : Int) 281 4377
  else if difference ≤ 69914 then
    serialize_bool_write false ++ serialize_bool_write false ++ serialize_bool_write false
      ++ serialize_bool_write false ++ serialize_bool_write false ++ serialize_bool_write true
      ++ serialize_int_write (difference : Int) 4378 69914
  else
    serialize_bool_write false ++ serialize_bool_write false ++ serialize_bool_write false
      ++ serialize_bool_write false ++ serialize_bool_write false ++ serialize_bool_write false
      ++ serialize_bits_write current 32

/-! Read mode of `serialize_int_relative_internal`: consumes the flags in the
same fixed order; the first true flag selects the decoding path and
`current = previous + difference` (in `uint32_t` arithmetic); with all six
flags false the raw 32-bit current value is read.  The source is a straight
line of early returns; each `serialize_int_relative_read_afterK` below is the
remainder of that line after the first `K` flags were read as false. -/

/-- The tail of the read path after five false flags: the `sixteenBits` flag,
its `[4378,69914]` payload, or the raw 32-bit fallback. -/
def serialize_int_relative_read_after5 (s : List Bool) (previous : Nat) :
    Option (Nat × List Bool) :=
  (serialize_bool_read s).bind fun sixteenBits =>
  if sixteenBits.1 then
    (serialize_int_read sixteenBits.2 4378 69914).bind fun d =>
      some (uadd32 previous d.1.toNat, d.2)
  else
    (serialize_bits_read sixteenBits.2 32).bind fun v =>
      some (v.1, v.2)

/-- The tail of the read path after four false flags: the `twelveBits` flag and
its `[281,4377]` payload. -/
def serialize_int_relative_read_after4 (s : List Bool) (previous : Nat) :
    Option (Nat × List Bool) :=
  (serialize_bool_read s).bind fun twelveBits =>
  if twelveBits.1 then
    (serialize_int_read twelveBits.2 281 4377).bind fun d =>
      some (uadd32 previous d.1.toNat, d.2)
  else
    serialize_int_relative_read_after5 twelveBits.2 previous

/-- The tail of the read path after three false flags: the `eightBits` flag and
its `[24,280]` payload. -/
def serialize_int_relative_read_after3 (s : List Bool) (previous : Nat) :
    Option (Nat × List Bool) :=
  (serialize_bool_read s).bind fun eightBits =>
  if eightBits.1 then
    (serialize_int_read eightBits.2 24 280).bind fun d =>
      some (uadd32 previous d.1.toNat, d.2)
  else
    serialize_int_relative_read_after4 eightBits.2 previous

/-- The tail of the read path after two false flags: the `fourBits` flag and
its `[7,23]` payload. -/
def serialize_int_relative_read_after2 (s : List Bool) (previous : Nat) :
    Option (Nat × List Bool) :=
  (serialize_bool_read s).bind fun fourBits =>
  if fourBits.1 then
    (serialize_int_read fourBits.2 7 23).bind fun d =>
      some (uadd32 previous d.1.toNat, d.2)
  else
    serialize_int_relative_read_after3 fourBits.2 previous

/-- The tail of the read path after one false flag: the `twoBits` flag and its
`[2,6]` payload. -/
def serialize_int_relative_read_after1 (s : List Bool) (previous : Nat) :
    Option (Nat × List Bool) :=
  (serialize_bool_read s).bind fun twoBits =>
  if twoBits.1 then
    (serialize_int_read twoBits.2 2 6).bind fun d =>
      some (uadd32 previous d.1.toNat, d.2)
  else
    serialize_int_relative_read_after2 twoBits.2 previous

/-- Read mode of `serialize_int_relative_internal`: the `oneBit` flag
(difference exactly 1), then the escalating tails above. -/
def serialize_int_relative_read (s : List Bool) (previous : Nat) :
    Option (Nat × List Bool) :=
  (serialize_bool_read s).bind fun oneBit =>
  if oneBit.1 then some (uadd32 previous 1, oneBit.2) else
  serialize_int_relative_read_after1 oneBit.2 previous

/-- Measure mode of `serialize_int_relative_internal`: with neither `IsWriting`
nor `IsReading` set, every flag keeps its initialiser `false`, so control falls
through all six flag serializations to the raw 32-bit fallback: six one-bit
runs plus a 32-bit run. -/
def serialize_int_relative_measure : Nat :=
  serialize_bool_measure + serialize_bool_measure + serialize_bool_measure
    + serialize_bool_measure + serialize_bool_measure + serialize_bool_measure
    + serialize_bits_measure 32

/-! ## `serialize_ack_relative_internal` (`yojimbo_serialize.h:507`)

`sequence` and `ack` are `uint16_t` values, i.e. naturals below `65536`. -/

/-- The write side's `ack_delta` computation: `sequence - ack` when
`ack < sequence`, otherwise `(int) sequence + 65536 - ack`. -/
def ack_delta (sequence ack : Nat) : Nat :=
  if ack < sequence then sequence - ack else sequence + 65536 - ack

/-- Write-side assertions of `serialize_ack_relative_internal`:
`ack_delta > 0` and `uint16_t( sequence - ack_delta ) == ack` (the subtraction
is `int` arithmetic truncated to 16 bits). -/
def ack_relative_write_assert (sequence ack : Nat) : Prop :=
  0 < ack_delta sequence ack
    ∧ ((sequence : Int) - (ack_delta sequence ack : Int)) % 65536 = (ack : Int)

/-- Write mode of `serialize_ack_relative_internal`: when the delta is in
`[1,64]` a true flag then the delta as a bounded integer in `[1,64]`; otherwise
a false flag then the raw 16-bit ack. -/
def serialize_ack_relative_write (sequence ack : Nat) : List Bool :=
  serialize_bool_write (decide (ack_delta sequence ack ≤ 64)) ++
    if ack_delta sequence ack ≤ 64 then
      serialize_int_write (ack_delta sequence ack : Int) 1 64
    else serialize_bits_write ack 16

/-- Read mode of `serialize_ack_relative_internal`: a true flag yields
`ack = uint16_t( sequence - ack_delta )`; a false flag yields the raw 16 bits. -/
def serialize_ack_relative_read (s : List Bool) (sequence : Nat) :
    Option (Nat × List Bool) :=
  (serialize_bool_read s).bind fun flag =>
  if flag.1 then
    (serialize_int_read flag.2 1 64).bind fun d =>
      some ((((sequence : Int) - d.1) % 65536).toNat, d.2)
  else
    (serialize_bits_read flag.2 16).bind fun v =>
      some (v.1, v.2)

/-- Measure mode of `serialize_ack_relative_internal`: `ack_in_range` keeps its
initialiser `false` (neither `IsWriting` nor `IsReading`), so the flag and the
raw 16-bit branch are measured. -/
def serialize_ack_relative_measure : Nat :=
  serialize_bool_measure + serialize_bits_measure 16

/-! ## `serialize_sequence_relative_internal` (`yojimbo_serialize.h:562`)

`sequence1` and `sequence2` are `uint16_t` values. -/

/-- The write side's lift of `sequence2` into the unwrapped 32-bit space:
`sequence2 + ( ( sequence1 > sequence2 ) ? 65536 : 0 )`. -/
def sequence_relative_lift (sequence1 sequence2 : Nat) : Nat :=
  sequence2 + (if sequence1 > sequence2 then 65536 else 0)

/-- Write mode of `serialize_sequence_relative_internal`: lifts `sequence2` and
delegates to the delta codec with `previous = sequence1`. -/
def serialize_sequence_relative_write (sequence1 sequence2 : Nat) : List Bool :=
  serialize_int_relative_write sequence1 (sequence_relative_lift sequence1 sequence2)

/-- Read mode of `serialize_sequence_relative_internal`: decodes the unwrapped
value relative to `sequence1`, subtracts 65536 when the decoded value is at
least 65536, and truncates to 16 bits (`uint16_t( b )`). -/
def serialize_sequence_relative_read (s : List Bool) (sequence1 : Nat) :
    Option (Nat × List Bool) :=
  (serialize_int_relative_read s sequence1).bind fun br =>
    some ((if br.1 ≥ 65536 then br.1 - 65536 else br.1) % 65536, br.2)

/-- Measure mode of `serialize_sequence_relative_internal`: `IsWriting` is
false under Measure, so the read branch runs with `b = 0` and delegates to the
delta codec's measure (which is flag-value independent). -/
def serialize_sequence_relative_measure : Nat :=
  serialize_int_relative_measure

/-! ## Serializable objects

A serializable object's mode-generic serialize routine invokes directives in a
fixed order (§4.3 of the spec: the Capability Adapter guarantees the same
routine drives all three modes).  An object is embedded as the list of directive
invocations its routine performs, each carrying the in-memory field value it
serializes together with its shape parameters. -/

/-- One directive invocation of an object's serialize routine, carrying the
in-memory value and the directive's shape parameters. -/
inductive Directive where
  | dInt (value min max : Int)
  | dBits (value bits : Nat)
  | dBool (value : Bool)
  | dFloat (pattern : Nat)
  | dDouble (pattern : Nat)
  | dUint32 (value : Nat)
  | dUint64 (value : Nat)
  | dBytes (data : List Nat)
  | dString (data : List Nat) (buffer_size : Int)
  | dAddress (a : Address)
  | dIntRelative (previous current : Nat)
  | dAckRelative (sequence ack : Nat)
  | dSequenceRelative (sequence1 sequence2 : Nat)
  deriving DecidableEq

/-- Executing one directive under the Write stream: the bits it emits. -/
def directive_write : Directive → List Bool
  | .dInt value min max => serialize_int_write value min max
  | .dBits value bits => serialize_bits_write value bits
  | .dBool value => serialize_bool_write value
  | .dFloat pattern => serialize_float_write pattern
  | .dDouble pattern => serialize_double_write pattern
  | .dUint32 value => serialize_uint32_write value
  | .dUint64 value => serialize_uint64_write value
  | .dBytes data => serialize_bytes_write data
  | .dString data buffer_size => serialize_string_write data buffer_size
  | .dAddress a => serialize_address_write a
  | .dIntRelative previous current => serialize_int_relative_write previous current
  | .dAckRelative sequence ack => serialize_ack_relative_write sequence ack
  | .dSequenceRelative s1 s2 => serialize_sequence_relative_write s1 s2

/-- Executing one directive under the Read stream: the decoded value replaces
the directive's value field (the shape parameters — bounds, widths, the
reference values `previous`/`sequence` — are the reader's own). -/
def directive_read : Directive → List Bool → Option (Directive × List Bool)
  | .dInt _ min max, s =>
    (serialize_int_read s min max).bind fun vr => some (.dInt vr.1 min max, vr.2)
  | .dBits _ bits, s =>
    (serialize_bits_read s bits).bind fun vr => some (.dBits vr.1 bits, vr.2)
  | .dBool _, s =>
    (serialize_bool_read s).bind fun vr => some (.dBool vr.1, vr.2)
  | .dFloat _, s =>
    (serialize_float_read s).bind fun vr => some (.dFloat vr.1, vr.2)
  | .dDouble _, s =>
    (serialize_double_read s).bind fun vr => some (.dDouble vr.1, vr.2)
  | .dUint32 _, s =>
    (serialize_uint32_read s).bind fun vr => some (.dUint32 vr.1, vr.2)
  | .dUint64 _, s =>
    (serialize_uint64_read s).bind fun vr => some (.dUint64 vr.1, vr.2)
  | .dBytes data, s =>
    (serialize_bytes_read s data.length).bind fun vr => some (.dBytes vr.1, vr.2)
  | .dString _ buffer_size, s =>
    (serialize_string_read s buffer_size).bind fun vr =>
      some (.dString vr.1 buffer_size, vr.2)
  | .dAddress _, s =>
    (serialize_address_read s).bind fun vr => some (.dAddress vr.1, vr.2)
  | .dIntRelative previous _, s =>
    (serialize_int_relative_read s previous).bind fun vr =>
      some (.dIntRelative previous vr.1, vr.2)
  | .dAckRelative sequence _, s =>
    (serialize_ack_relative_read s sequence).bind fun vr =>
      some (.dAckRelative sequence vr.1, vr.2)
  | .dSequenceRelative s1 _, s =>
    (serialize_sequence_relative_read s s1).bind fun vr =>
      some (.dSequenceRelative s1 vr.1, vr.2)

/-- Executing one directive under the Measure stream: the bit count it
accumulates. -/
def directive_measure : Directive → Nat
  | .dInt _ min max => serialize_int_measure min max
  | .dBits _ bits => serialize_bits_measure bits
  | .dBool _ => serialize_bool_measure
  | .dFloat _ => serialize_float_measure
  | .dDouble _ => serialize_double_measure
  | .dUint32 _ => serialize_uint32_measure
  | .dUint64 _ => serialize_uint64_measure
  | .dBytes data => serialize_bytes_measure data.length
  | .dString _ buffer_size => serialize_string_measure buffer_size
  | .dAddress _ => serialize_address_measure
  | .dIntRelative _ _ => serialize_int_relative_measure
  | .dAckRelative _ _ => serialize_ack_relative_measure
  | .dSequenceRelative _ _ => serialize_sequence_relative_measure

/-- The write-side precondition of one directive: the source's write-side
assertions together with the C value-type ranges of the directive's operands
(`uint16_t`/`uint32_t`/`uint64_t`/`uint8_t` fields). -/
def directive_write_ok : Directive → Prop
  | .dInt value min max => serialize_int_write_assert value min max
  | .dBits value bits => serialize_bits_assert bits ∧ value < 2 ^ 32
  | .dBool _ => True
  | .dFloat pattern => pattern < 2 ^ 32
  | .dDouble pattern => pattern < 2 ^ 64
  | .dUint32 value => value < 2 ^ 32
  | .dUint64 value => value < 2 ^ 64
  | .dBytes data => ∀ b ∈ data, b < 256
  | .dString data buffer_size =>
      2 ≤ buffer_size ∧ (data.length : Int) < buffer_size ∧ ∀ b ∈ data, b < 256
  | .dAddress a => serialize_address_write_assert a
  | .dIntRelative previous current =>
      int_relative_write_assert previous current ∧ current < 2 ^ 32
  | .dAckRelative sequence ack => sequence < 65536 ∧ ack < 65536
  | .dSequenceRelative s1 s2 => s1 < 65536 ∧ s2 < 65536 ∧ s1 ≠ s2

/-- The extra fit condition on bit-runs (§3 of the spec: truncation to the low
`bits` bits is the writer's responsibility): the value must fit its width for
the run to be reproduced value-for-value. -/
def directive_value_fits : Directive → Prop
  | .dBits value bits => value < 2 ^ bits
  | _ => True

/-- An object's serialize routine under the Write stream: the concatenation of
its directives' emissions. -/
def object_write (o : List Directive) : List Bool :=
  (o.map directive_write).flatten

/-- An object's serialize routine under the Measure stream: the sum of its
directives' measured costs. -/
def object_measure (o : List Directive) : Nat :=
  (o.map directive_measure).sum

/-- A valid object: all write-side preconditions of its directives hold. -/
def object_valid (o : List Directive) : Prop :=
  ∀ d ∈ o, directive_write_ok d

/-- Directives whose measured cost is independent of the serialized value. -/
def Directive.fixedCost : Directive → Prop
  | .dInt _ _ _ => True
  | .dBits _ _ => True
  | .dBool _ => True
  | .dFloat _ => True
  | .dDouble _ => True
  | .dUint32 _ => True
  | .dUint64 _ => True
  | .dBytes _ => True
  | _ => False

/-! ## Round-trip lemmas for the primitive directives -/

theorem serialize_bits_read_append (value bits : Nat) (rest : List Bool) :
    serialize_bits_read (serialize_bits_write value bits ++ rest) bits
      = some (value % 2 ^ bits, rest) := by
  unfold serialize_bits_read serialize_bits_write
  exact readBits_append value bits rest

theorem serialize_bool_read_append (value : Bool) (rest : List Bool) :
    serialize_bool_read (serialize_bool_write value ++ rest) = some (value, rest) := by
  unfold serialize_bool_read serialize_bool_write
  rw [serialize_bits_read_append]
  cases value <;> simp

theorem serialize_int_read_append (value min max : Int) (rest : List Bool)
    (h1 : min ≤ value) (h2 : value ≤ max) :
    serialize_int_read (serialize_int_write value min max ++ rest) min max
      = some (value, rest) := by
  unfold serialize_int_read serialize_int_write readStreamInteger writeStreamInteger
  rw [readBits_append]
  have hfit : (value - min).toNat < 2 ^ bitsRequired (max - min).toNat := by
    have h3 : (value - min).toNat ≤ (max - min).toNat := by omega
    have h4 := lt_two_pow_bitsRequired (max - min).toNat
    omega
  rw [Nat.mod_eq_of_lt hfit]
  have hv : min + (((value - min).toNat : Nat) : Int) = value := by omega
  simp only [Option.some_bind, hv]
  rw [if_neg (by omega)]

theorem serialize_float_read_append (pattern : Nat) (rest : List Bool)
    (h : pattern < 2 ^ 32) :
    serialize_float_read (serialize_float_write pattern ++ rest) = some (pattern, rest) := by
  unfold serialize_float_read serialize_float_write
  rw [serialize_bits_read_append, Nat.mod_eq_of_lt h]

theorem serialize_uint32_read_append (value : Nat) (rest : List Bool)
    (h : value < 2 ^ 32) :
    serialize_uint32_read (serialize_uint32_write value ++ rest) = some (value, rest) := by
  unfold serialize_uint32_read serialize_uint32_write
  rw [serialize_bits_read_append, Nat.mod_eq_of_lt h]

theorem serialize_uint64_read_append (value : Nat) (rest : List Bool)
    (h : value < 2 ^ 64) :
    serialize_uint64_read (serialize_uint64_write value ++ rest) = some (value, rest) := by
  unfold serialize_uint64_read serialize_uint64_write
  rw [List.append_assoc, serialize_bits_read_append]
  simp only [Option.some_bind]
  rw [serialize_bits_read_append]
  simp only [Option.some_bind]
  have hval : value / 2 ^ 32 % 2 ^ 32 * 2 ^ 32 + value % 2 ^ 32 % 2 ^ 32 = value := by
    omega
  rw [hval]

theorem serialize_double_read_append (pattern : Nat) (rest : List Bool)
    (h : pattern < 2 ^ 64) :
    serialize_double_read (serialize_double_write pattern ++ rest) = some (pattern, rest) := by
  unfold serialize_double_read serialize_double_write
  exact serialize_uint64_read_append pattern rest h

theorem serialize_bytes_read_append (data : List Nat) (rest : List Bool)
    (h : ∀ b ∈ data, b < 256) :
    serialize_bytes_read (serialize_bytes_write data ++ rest) data.length
      = some (data, rest) := by
  induction data with
  | nil => rfl
  | cons b bs ih =>
    have hb : b < 256 := h b (by simp)
    have hbs : ∀ x ∈ bs, x < 256 := fun x hx => h x (by simp [hx])
    unfold serialize_bytes_write at ih ⊢
    simp only [List.map_cons, List.flatten_cons, List.length_cons, List.append_assoc]
    unfold serialize_bytes_read
    have h8 : readBits (natToBits b 8 ++ ((bs.map fun x => natToBits x 8).flatten ++ rest)) 8
        = some (b % 2 ^ 8, (bs.map fun x => natToBits x 8).flatten ++ rest) :=
      readBits_append b 8 _
    rw [h8]
    simp only [Option.some_bind]
    rw [Nat.mod_eq_of_lt (by omega : b < 2 ^ 8)]
    rw [ih hbs]
    simp only [Option.some_bind]

theorem serialize_string_read_append (data : List Nat) (buffer_size : Int)
    (rest : List Bool) (h1 : (data.length : Int) ≤ buffer_size - 1)
    (h2 : ∀ b ∈ data, b < 256) :
    serialize_string_read (serialize_string_write data buffer_size ++ rest) buffer_size
      = some (data, rest) := by
  unfold serialize_string_read serialize_string_write
  rw [List.append_assoc,
    serialize_int_read_append (data.length : Int) 0 (buffer_size - 1) _ (by omega) h1]
  simp only [Option.some_bind, Int.toNat_natCast]
  exact serialize_bytes_read_append data rest h2

theorem serialize_address_read_append (a : Address) (rest : List Bool)
    (h : a.IsValid = true) :
    serialize_address_read (serialize_address_write a ++ rest) = some (a, rest) := by
  unfold serialize_address_read serialize_address_write
  have hv := h
  unfold Address.IsValid at hv
  simp only [Bool.and_eq_true, decide_eq_true_eq, List.all_eq_true] at hv
  have hlen : (a.text.length : Int) ≤ (MaxAddressLength : Int) - 1 := by
    have := hv.1.2
    unfold MaxAddressLength at this ⊢
    omega
  have hbytes : ∀ b ∈ a.text, b < 256 := by
    intro b hb
    have := (hv.2 b hb).2
    omega
  rw [serialize_string_read_append a.text (MaxAddressLength : Int) rest hlen hbytes]
  simp only [Option.some_bind]
  rw [if_pos h]

/-! ## Round-trip of the delta codec -/

theorem usub32_eq (a b : Nat) (h1 : b ≤ a) (h2 : a < 2 ^ 32) : usub32 a b = a - b := by
  unfold usub32
  have h3 : a + 2 ^ 32 - b = (a - b) + 2 ^ 32 := by omega
  rw [h3, Nat.add_mod_right, Nat.mod_eq_of_lt (by omega)]

theorem uadd32_eq (a b : Nat) (h : a + b < 2 ^ 32) : uadd32 a b = a + b := by
  unfold uadd32
  exact Nat.mod_eq_of_lt h

/-! Step lemmas for the staged read path: reading a false flag advances to the
next stage; reading a true flag decodes that stage's payload. -/

theorem int_relative_read_false0 (X : List Bool) (p : Nat) :
    serialize_int_relative_read (serialize_bool_write false ++ X) p
      = serialize_int_relative_read_after1 X p := by
  unfold serialize_int_relative_read
  rw [serialize_bool_read_append]
  simp only [Option.some_bind, Bool.false_eq_true, if_false]

theorem int_relative_read_false1 (X : List Bool) (p : Nat) :
    serialize_int_relative_read_after1 (serialize_bool_write false ++ X) p
      = serialize_int_relative_read_after2 X p := by
  unfold serialize_int_relative_read_after1
  rw [serialize_bool_read_append]
  simp only [Option.some_bind, Bool.false_eq_true, if_false]

theorem int_relative_read_false2 (X : List Bool) (p : Nat) :
    serialize_int_relative_read_after2 (serialize_bool_write false ++ X) p
      = serialize_int_relative_read_after3 X p := by
  unfold serialize_int_relative_read_after2
  rw [serialize_bool_read_append]
  simp only [Option.some_bind, Bool.false_eq_true, if_false]

theorem int_relative_read_false3 (X : List Bool) (p : Nat) :
    serialize_int_relative_read_after3 (serialize_bool_write false ++ X) p
      = serialize_int_relative_read_after4 X p := by
  unfold serialize_int_relative_read_after3
  rw [serialize_bool_read_append]
  simp only [Option.some_bind, Bool.false_eq_true, if_false]

theorem int_relative_read_false4 (X : List Bool) (p : Nat) :
    serialize_int_relative_read_after4 (serialize_bool_write false ++ X) p
      = serialize_int_relative_read_after5 X p := by
  unfold serialize_int_relative_read_after4
  rw [serialize_bool_read_append]
  simp only [Option.some_bind, Bool.false_eq_true, if_false]

theorem int_relative_read_true0 (X : List Bool) (p : Nat) :
    serialize_int_relative_read (serialize_bool_write true ++ X) p
      = some (uadd32 p 1, X) := by
  unfold serialize_int_relative_read
  rw [serialize_bool_read_append]
  simp only [Option.some_bind, if_true]

theorem int_relative_read_payload1 (D : Nat) (rest : List Bool) (p : Nat)
    (hlo : 2 ≤ D) (hhi : D ≤ 6) :
    serialize_int_relative_read_after1
        (serialize_bool_write true ++ (serialize_int_write (D : Int) 2 6 ++ rest)) p
      = some (uadd32 p D, rest) := by
  unfold serialize_int_relative_read_after1
  rw [serialize_bool_read_append]
  simp only [Option.some_bind, if_true]
  rw [serialize_int_read_append _ 2 6 _ (by omega) (by omega)]
  simp only [Option.some_bind, Int.toNat_natCast]

theorem int_relative_read_payload2 (D : Nat) (rest : List Bool) (p : Nat)
    (hlo : 7 ≤ D) (hhi : D ≤ 23) :
    serialize_int_relative_read_after2
        (serialize_bool_write true ++ (serialize_int_write (D : Int) 7 23 ++ rest)) p
      = some (uadd32 p D, rest) := by
  unfold serialize_int_relative_read_after2
  rw [serialize_bool_read_append]
  simp only [Option.some_bind, if_true]
  rw [serialize_int_read_append _ 7 23 _ (by omega) (by omega)]
  simp only [Option.some_bind, Int.toNat_natCast]

theorem int_relative_read_payload3 (D : Nat) (rest : List Bool) (p : Nat)
    (hlo : 24 ≤ D) (hhi : D ≤ 280) :
    serialize_int_relative_read_after3
        (serialize_bool_write true ++ (serialize_int_write (D : Int) 24 280 ++ rest)) p
      = some (uadd32 p D, rest) := by
  unfold serialize_int_relative_read_after3
  rw [serialize_bool_read_append]
  simp only [Option.some_bind, if_true]
  rw [serialize_int_read_append _ 24 280 _ (by omega) (by omega)]
  simp only [Option.some_bind, Int.toNat_natCast]

theorem int_relative_read_payload4 (D : Nat) (rest : List Bool) (p : Nat)
    (hlo : 281 ≤ D) (hhi : D ≤ 4377) :
    serialize_int_relative_read_after4
        (serialize_bool_write true ++ (serialize_int_write (D : Int) 281 4377 ++ rest)) p
      = some (uadd32 p D, rest) := by
  unfold serialize_int_relative_read_after4
  rw [serialize_bool_read_append]
  simp only [Option.some_bind, if_true]
  rw [serialize_int_read_append _ 281 4377 _ (by omega) (by omega)]
  simp only [Option.some_bind, Int.toNat_natCast]

theorem int_relative_read_payload5 (D : Nat) (rest : List Bool) (p : Nat)
    (hlo : 4378 ≤ D) (hhi : D ≤ 69914) :
    serialize_int_relative_read_after5
        (serialize_bool_write true ++ (serialize_int_write (D : Int) 4378 69914 ++ rest)) p
      = some (uadd32 p D, rest) := by
  unfold serialize_int_relative_read_after5
  rw [serialize_bool_read_append]
  simp only [Option.some_bind, if_true]
  rw [serialize_int_read_append _ 4378 69914 _ (by omega) (by omega)]
  simp only [Option.some_bind, Int.toNat_natCast]

theorem int_relative_read_fallback (c : Nat) (rest : List Bool) (p : Nat)
    (h : c < 2 ^ 32) :
    serialize_int_relative_read_after5
        (serialize_bool_write false ++ (serialize_bits_write c 32 ++ rest)) p
      = some (c, rest) := by
  unfold serialize_int_relative_read_after5
  rw [serialize_bool_read_append]
  simp only [Option.some_bind, Bool.false_eq_true, if_false]
  rw [serialize_bits_read_append]
  simp only [Option.some_bind]
  rw [Nat.mod_eq_of_lt h]

theorem serialize_int_relative_read_append (p c : Nat) (rest : List Bool)
    (h1 : p < c) (h2 : c < 2 ^ 32) :
    serialize_int_relative_read (serialize_int_relative_write p c ++ rest) p
      = some (c, rest) := by
  have hu : usub32 c p = c - p := usub32_eq c p (by omega) h2
  have hadd : uadd32 p (c - p) = c := by
    rw [uadd32_eq p (c - p) (by omega)]
    omega
  unfold serialize_int_relative_write
  simp only [hu]
  by_cases hd1 : c - p = 1
  · rw [if_pos hd1, int_relative_read_true0, uadd32_eq p 1 (by omega)]
    congr 2
    omega
  · rw [if_neg hd1]
    by_cases hd2 : c - p ≤ 6
    · rw [if_pos hd2]
      simp only [List.append_assoc]
      rw [int_relative_read_false0,
        int_relative_read_payload1 (c - p) rest p (by omega) hd2, hadd]
    · rw [if_neg hd2]
      by_cases hd3 : c - p ≤ 23
      · rw [if_pos hd3]
        simp only [List.append_assoc]
        rw [int_relative_read_false0, int_relative_read_false1,
          int_relative_read_payload2 (c - p) rest p (by omega) hd3, hadd]
      · rw [if_neg hd3]
        by_cases hd4 : c - p ≤ 280
        · rw [if_pos hd4]
          simp only [List.append_assoc]
          rw [int_relative_read_false0, int_relative_read_false1,
            int_relative_read_false2,
            int_relative_read_payload3 (c - p) rest p (by omega) hd4, hadd]
        · rw [if_neg hd4]
          by_cases hd5 : c - p ≤ 4377
          · rw [if_pos hd5]
            simp only [List.append_assoc]
            rw [int_relative_read_false0, int_relative_read_false1,
              int_relative_read_false2, int_relative_read_false3,
              int_relative_read_payload4 (c - p) rest p (by omega) hd5, hadd]
          · rw [if_neg hd5]
            by_cases hd6 : c - p ≤ 69914
            · rw [if_pos hd6]
              simp only [List.append_assoc]
              rw [int_relative_read_false0, int_relative_read_false1,
                int_relative_read_false2, int_relative_read_false3,
                int_relative_read_false4,
                int_relative_read_payload5 (c - p) rest p (by omega) hd6, hadd]
            · rw [if_neg hd6]
              simp only [List.append_assoc]
              rw [int_relative_read_false0, int_relative_read_false1,
                int_relative_read_false2, int_relative_read_false3,
                int_relative_read_false4, int_relative_read_fallback c rest p h2]

/-! ## Exact shape of the delta codec's wire output, bucket by bucket -/

theorem serialize_int_write_natToBits_2_6 (D : Nat) (h : 2 ≤ D) :
    serialize_int_write (D : Int) 2 6 = natToBits (D - 2) 3 := by
  unfold serialize_int_write writeStreamInteger
  have ha : ((D : Int) - 2).toNat = D - 2 := by omega
  have hb : bitsRequired ((6 : Int) - 2).toNat = 3 := by decide
  rw [ha, hb]

theorem serialize_int_write_natToBits_7_23 (D : Nat) (h : 7 ≤ D) :
    serialize_int_write (D : Int) 7 23 = natToBits (D - 7) 5 := by
  unfold serialize_int_write writeStreamInteger
  have ha : ((D : Int) - 7).toNat = D - 7 := by omega
  have hb : bitsRequired ((23 : Int) - 7).toNat = 5 := by decide
  rw [ha, hb]

theorem serialize_int_write_natToBits_24_280 (D : Nat) (h : 24 ≤ D) :
    serialize_int_write (D : Int) 24 280 = natToBits (D - 24) 9 := by
  unfold serialize_int_write writeStreamInteger
  have ha : ((D : Int) - 24).toNat = D - 24 := by omega
  have hb : bitsRequired ((280 : Int) - 24).toNat = 9 := by decide
  rw [ha, hb]

theorem serialize_int_write_natToBits_281_4377 (D : Nat) (h : 281 ≤ D) :
    serialize_int_write (D : Int) 281 4377 = natToBits (D - 281) 13 := by
  unfold serialize_int_write writeStreamInteger
  have ha : ((D : Int) - 281).toNat = D - 281 := by omega
  have hb : bitsRequired ((4377 : Int) - 281).toNat = 13 := by decide
  rw [ha, hb]

theorem serialize_int_write_natToBits_4378_69914 (D : Nat) (h : 4378 ≤ D) :
    serialize_int_write (D : Int) 4378 69914 = natToBits (D - 4378) 17 := by
  unfold serialize_int_write writeStreamInteger
  have ha : ((D : Int) - 4378).toNat = D - 4378 := by omega
  have hb : bitsRequired ((69914 : Int) - 4378).toNat = 17 := by decide
  rw [ha, hb]

theorem int_relative_write_shape1 (p c : Nat) (h1 : p < c) (h2 : c < 2 ^ 32)
    (hd : c - p = 1) :
    serialize_int_relative_write p c = [true] := by
  have hu := usub32_eq c p (by omega) h2
  unfold serialize_int_relative_write
  simp only [hu]
  rw [if_pos hd]
  rfl

theorem int_relative_write_shape2 (p c : Nat) (h1 : p < c) (h2 : c < 2 ^ 32)
    (hlo : 2 ≤ c - p) (hhi : c - p ≤ 6) :
    serialize_int_relative_write p c = [false, true] ++ natToBits (c - p - 2) 3 := by
  have hu := usub32_eq c p (by omega) h2
  unfold serialize_int_relative_write
  simp only [hu]
  rw [if_neg (by omega), if_pos hhi, serialize_int_write_natToBits_2_6 (c - p) hlo]
  rfl

theorem int_relative_write_shape3 (p c : Nat) (h1 : p < c) (h2 : c < 2 ^ 32)
    (hlo : 7 ≤ c - p) (hhi : c - p ≤ 23) :
    serialize_int_relative_write p c
      = [false, false, true] ++ natToBits (c - p - 7) 5 := by
  have hu := usub32_eq c p (by omega) h2
  unfold serialize_int_relative_write
  simp only [hu]
  rw [if_neg (by omega), if_neg (by omega), if_pos hhi,
    serialize_int_write_natToBits_7_23 (c - p) hlo]
  rfl

theorem int_relative_write_shape4 (p c : Nat) (h1 : p < c) (h2 : c < 2 ^ 32)
    (hlo : 24 ≤ c - p) (hhi : c - p ≤ 280) :
    serialize_int_relative_write p c
      = [false, false, false, true] ++ natToBits (c - p - 24) 9 := by
  have hu := usub32_eq c p (by omega) h2
  unfold serialize_int_relative_write
  simp only [hu]
  rw [if_neg (by omega), if_neg (by omega), if_neg (by omega), if_pos hhi,
    serialize_int_write_natToBits_24_280 (c - p) hlo]
  rfl

theorem int_relative_write_shape5 (p c : Nat) (h1 : p < c) (h2 : c < 2 ^ 32)
    (hlo : 281 ≤ c - p) (hhi : c - p ≤ 4377) :
    serialize_int_relative_write p c
      = [false, false, false, false, true] ++ natToBits (c - p - 281) 13 := by
  have hu := usub32_eq c p (by omega) h2
  unfold serialize_int_relative_write
  simp only [hu]
  rw [if_neg (by omega), if_neg (by omega), if_neg (by omega), if_neg (by omega),
    if_pos hhi, serialize_int_write_natToBits_281_4377 (c - p) hlo]
  rfl

theorem int_relative_write_shape6 (p c : Nat) (h1 : p < c) (h2 : c < 2 ^ 32)
    (hlo : 4378 ≤ c - p) (hhi : c - p ≤ 69914) :
    serialize_int_relative_write p c
      = [false, false, false, false, false, true] ++ natToBits (c - p - 4378) 17 := by
  have hu := usub32_eq c p (by omega) h2
  unfold serialize_int_relative_write
  simp only [hu]
  rw [if_neg (by omega), if_neg (by omega), if_neg (by omega), if_neg (by omega),
    if_neg (by omega), if_pos hhi, serialize_int_write_natToBits_4378_69914 (c - p) hlo]
  rfl

theorem int_relative_write_shape_fallback (p c : Nat) (h1 : p < c) (h2 : c < 2 ^ 32)
    (hd : 69914 < c - p) :
    serialize_int_relative_write p c = List.replicate 6 false ++ natToBits c 32 := by
  have hu := usub32_eq c p (by omega) h2
  unfold serialize_int_relative_write
  simp only [hu]
  rw [if_neg (by omega), if_neg (by omega), if_neg (by omega), if_neg (by omega),
    if_neg (by omega), if_neg (by omega)]
  rfl

/-! ## Round-trip of the ack-relative codec -/

theorem ack_delta_pos (sequence ack : Nat) (ha : ack < 65536) :
    0 < ack_delta sequence ack := by
  unfold ack_delta
  split <;> omega

theorem ack_delta_le (sequence ack : Nat) (hs : sequence < 65536) :
    ack_delta sequence ack ≤ 65536 := by
  unfold ack_delta
  split <;> omega

theorem ack_delta_uint16_recovers (sequence ack : Nat) (hs : sequence < 65536)
    (ha : ack < 65536) :
    ((sequence : Int) - (ack_delta sequence ack : Int)) % 65536 = (ack : Int) := by
  unfold ack_delta
  split <;> omega

theorem serialize_ack_relative_read_append (sequence ack : Nat) (rest : List Bool)
    (hs : sequence < 65536) (ha : ack < 65536) :
    serialize_ack_relative_read (serialize_ack_relative_write sequence ack ++ rest)
      sequence = some (ack, rest) := by
  have h16 := ack_delta_uint16_recovers sequence ack hs ha
  unfold serialize_ack_relative_write
  by_cases hr : ack_delta sequence ack ≤ 64
  · rw [decide_eq_true hr, if_pos hr]
    simp only [List.append_assoc]
    unfold serialize_ack_relative_read
    rw [serialize_bool_read_append]
    simp only [Option.some_bind, if_true]
    rw [serialize_int_read_append _ 1 64 _
      (by have := ack_delta_pos sequence ack ha; omega) (by omega)]
    simp only [Option.some_bind]
    have hc : (((sequence : Int) - (ack_delta sequence ack : Int)) % 65536).toNat
        = ack := by
      rw [h16]
      omega
    rw [hc]
  · rw [decide_eq_false hr, if_neg hr]
    simp only [List.append_assoc]
    unfold serialize_ack_relative_read
    rw [serialize_bool_read_append]
    simp only [Option.some_bind, Bool.false_eq_true, if_false]
    rw [serialize_bits_read_append]
    simp only [Option.some_bind]
    rw [Nat.mod_eq_of_lt (by omega : ack < 2 ^ 16)]

/-! ## Round-trip of the sequence-relative codec -/

theorem sequence_relative_lift_lt (s1 s2 : Nat) (h1 : s1 < 65536) (hne : s1 ≠ s2) :
    s1 < sequence_relative_lift s1 s2 := by
  unfold sequence_relative_lift
  split <;> omega

theorem sequence_relative_lift_lt_2_32 (s1 s2 : Nat) (h2 : s2 < 65536) :
    sequence_relative_lift s1 s2 < 2 ^ 32 := by
  unfold sequence_relative_lift
  split <;> omega

theorem serialize_sequence_relative_read_append (s1 s2 : Nat) (rest : List Bool)
    (h1 : s1 < 65536) (h2 : s2 < 65536) (hlift : s1 < sequence_relative_lift s1 s2) :
    serialize_sequence_relative_read
      (serialize_sequence_relative_write s1 s2 ++ rest) s1 = some (s2, rest) := by
  unfold serialize_sequence_relative_write serialize_sequence_relative_read
  rw [serialize_int_relative_read_append s1 (sequence_relative_lift s1 s2) rest hlift
    (sequence_relative_lift_lt_2_32 s1 s2 h2)]
  simp only [Option.some_bind]
  have hfold : (if sequence_relative_lift s1 s2 ≥ 65536
      then sequence_relative_lift s1 s2 - 65536
      else sequence_relative_lift s1 s2) % 65536 = s2 := by
    unfold sequence_relative_lift
    by_cases hgt : s1 > s2
    · rw [if_pos hgt, if_pos (by omega : s2 + 65536 ≥ 65536)]
      omega
    · rw [if_neg hgt, if_neg (by omega : ¬ s2 + 0 ≥ 65536)]
      omega
  rw [hfold]

/-! ## Write length versus measured cost -/

theorem serialize_bytes_write_length (data : List Nat) :
    (serialize_bytes_write data).length = 8 * data.length := by
  induction data with
  | nil => rfl
  | cons b bs ih =>
    simp only [serialize_bytes_write, List.map_cons, List.flatten_cons,
      List.length_append, natToBits_length, List.length_cons] at *
    omega

/-- For every fixed-cost directive the Write stream emits exactly the bit count
the Measure stream reports (no validity assumption is even needed: these
directives' write paths emit runs of statically known width). -/
theorem directive_fixed_write_length (d : Directive) (h : d.fixedCost) :
    (directive_write d).length = directive_measure d := by
  cases d with
  | dInt value mn mx =>
    simp [directive_write, directive_measure, serialize_int_write, writeStreamInteger,
      serialize_int_measure, measureStreamInteger, natToBits_length]
  | dBits value bits =>
    simp [directive_write, directive_measure, serialize_bits_write,
      serialize_bits_measure, natToBits_length]
  | dBool value => cases value <;> rfl
  | dFloat pattern =>
    simp [directive_write, directive_measure, serialize_float_write,
      serialize_float_measure, serialize_bits_write, serialize_bits_measure,
      natToBits_length]
  | dDouble pattern =>
    simp [directive_write, directive_measure, serialize_double_write,
      serialize_uint64_write, serialize_double_measure, serialize_uint64_measure,
      serialize_bits_write, serialize_bits_measure, natToBits_length]
  | dUint32 value =>
    simp [directive_write, directive_measure, serialize_uint32_write,
      serialize_uint32_measure, serialize_bits_write, serialize_bits_measure,
      natToBits_length]
  | dUint64 value =>
    simp [directive_write, directive_measure, serialize_uint64_write,
      serialize_uint64_measure, serialize_bits_write, serialize_bits_measure,
      natToBits_length]
  | dBytes data =>
    simp [directive_write, directive_measure, serialize_bytes_write_length,
      serialize_bytes_measure]
  | dString data buffer_size => exact h.elim
  | dAddress a => exact h.elim
  | dIntRelative previous current => exact h.elim
  | dAckRelative sequence ack => exact h.elim
  | dSequenceRelative s1 s2 => exact h.elim

theorem object_measure_eq_write_length (o : List Directive)
    (hf : ∀ d ∈ o, d.fixedCost) :
    object_measure o = (object_write o).length := by
  induction o with
  | nil => rfl
  | cons d ds ih =>
    unfold object_write object_measure at *
    simp only [List.map_cons, List.flatten_cons, List.sum_cons, List.length_append]
    rw [directive_fixed_write_length d (hf d (by simp))]
    rw [ih fun x hx => hf x (by simp [hx])]

/-! ## Read-side range rejection -/

/-- A successful bounded-integer decode always lies inside `[min,max]`. -/
theorem serialize_int_read_some_in_range (s : List Bool) (min max value : Int)
    (rest : List Bool) (h : serialize_int_read s min max = some (value, rest)) :
    min ≤ value ∧ value ≤ max := by
  unfold serialize_int_read readStreamInteger at h
  cases hr : readBits s (bitsRequired (max - min).toNat) with
  | none => rw [hr] at h; simp at h
  | some pr =>
    rw [hr] at h
    simp only [Option.some_bind] at h
    by_cases hc : min + (pr.1 : Int) < min ∨ min + (pr.1 : Int) > max
    · rw [if_pos hc] at h
      exact absurd h (by simp)
    · rw [if_neg hc] at h
      simp only [Option.some.injEq, Prod.mk.injEq] at h
      push_neg at hc
      omega

/-- When the stream's bounded-integer primitive delivers a value above `max`
(an over-long bit pattern), the `serialize_int` macro's read path returns a
decode failure. -/
theorem serialize_int_read_none_of_overflow (s : List Bool) (min max : Int)
    (pattern : Nat) (rest : List Bool)
    (hr : readBits s (bitsRequired (max - min).toNat) = some (pattern, rest))
    (hout : max < min + (pattern : Int)) :
    serialize_int_read s min max = none := by
  unfold serialize_int_read readStreamInteger
  rw [hr]
  simp only [Option.some_bind]
  rw [if_pos (Or.inr (by omega))]

/-! ## String decode length bound -/

theorem serialize_bytes_read_length (n : Nat) :
    ∀ (s : List Bool) (data : List Nat) (rest : List Bool),
      serialize_bytes_read s n = some (data, rest) → data.length = n := by
  induction n with
  | zero =>
    intro s data rest h
    unfold serialize_bytes_read at h
    simp only [Option.some.injEq, Prod.mk.injEq] at h
    rw [← h.1]
    rfl
  | succ n ih =>
    intro s data rest h
    unfold serialize_bytes_read at h
    cases hb : readBits s 8 with
    | none => rw [hb] at h; simp at h
    | some b =>
      rw [hb] at h
      simp only [Option.some_bind] at h
      cases hrec : serialize_bytes_read b.2 n with
      | none => rw [hrec] at h; simp at h
      | some pr =>
        rw [hrec] at h
        simp only [Option.some_bind, Option.some.injEq, Prod.mk.injEq] at h
        rw [← h.1]
        simp only [List.length_cons]
        rw [ih b.2 pr.1 pr.2 hrec]

/-- A successful string decode's length always fits the declared buffer: the
decoded length is at most `buffer_size - 1`, so the read never writes past the
end of the buffer (content at indices below the decoded length, terminator at
the decoded length). -/
theorem serialize_string_read_some_length (s : List Bool) (buffer_size : Int)
    (data : List Nat) (rest : List Bool)
    (h : serialize_string_read s buffer_size = some (data, rest)) :
    (data.length : Int) ≤ buffer_size - 1 := by
  unfold serialize_string_read at h
  cases hr : serialize_int_read s 0 (buffer_size - 1) with
  | none => rw [hr] at h; simp at h
  | some lenr =>
    rw [hr] at h
    simp only [Option.some_bind] at h
    have hrange := serialize_int_read_some_in_range s 0 (buffer_size - 1)
      lenr.1 lenr.2 hr
    have hlen := serialize_bytes_read_length lenr.1.toNat lenr.2 data rest h
    omega

/-! ## Claim theorems -/

/-- Claim C1, counterexample: the valid single-directive object consisting of
`serialize_int_relative` with `previous = 0`, `current = 1` (a valid object:
`previous < current` holds) measures 38 bits under the Measure stream but
writes exactly 1 bit under the Write stream, so Measure and Write disagree. -/
theorem measure_write_disagree_int_relative :
    object_valid [Directive.dIntRelative 0 1]
      ∧ object_measure [Directive.dIntRelative 0 1] = 38
      ∧ (object_write [Directive.dIntRelative 0 1]).length = 1
      ∧ object_measure [Directive.dIntRelative 0 1]
          ≠ (object_write [Directive.dIntRelative 0 1]).length := by
  refine ⟨?_, by decide, by decide, by decide⟩
  intro d hd
  simp only [List.mem_singleton] at hd
  subst hd
  exact ⟨Nat.zero_lt_one, by decide⟩

/-- Claim C1 (amended): for every valid serializable object whose serialize
routine uses only the fixed-cost directives (integer-range, bit-run, boolean,
float, double, 32/64-bit unsigned integer, byte-run), the bit count reported by
the Measure stream equals the number of bits produced by the Write stream.  The
string directive and the three relative codecs measure a value-independent
cost that in general differs from the written cost. -/
theorem measure_equals_write_for_fixed_cost_objects (o : List Directive)
    (_hv : object_valid o) (hf : ∀ d ∈ o, d.fixedCost) :
    object_measure o = (object_write o).length :=
  object_measure_eq_write_length o hf

theorem measure_equals_write_for_fixed_cost_objects_witness :
    object_measure [Directive.dBool true, Directive.dUint32 7]
      = (object_write [Directive.dBool true, Directive.dUint32 7]).length :=
  measure_equals_write_for_fixed_cost_objects [Directive.dBool true, Directive.dUint32 7]
    (fun d hd => by
      simp only [List.mem_cons, List.mem_singleton, List.not_mem_nil, or_false] at hd
      rcases hd with h | h <;> subst h
      · trivial
      · show (7 : Nat) < 2 ^ 32
        decide)
    (fun d hd => by
      simp only [List.mem_cons, List.mem_singleton, List.not_mem_nil, or_false] at hd
      rcases hd with h | h <;> subst h <;> trivial)

/-- Claim C2, counterexample: the bit-run directive with `value = 2`,
`bits = 1` satisfies the write-side preconditions the claim lists (width in
`[1,32]`; the value is a `uint32_t`), yet Write-then-Read yields 0, not 2: the
value is truncated to its low bit on write, so the round trip does not
reproduce it. -/
theorem bit_run_roundtrip_counterexample :
    directive_write_ok (Directive.dBits 2 1)
      ∧ directive_read (Directive.dBits 2 1)
          (directive_write (Directive.dBits 2 1) ++ [])
          ≠ some (Directive.dBits 2 1, []) := by
  constructor
  · exact ⟨⟨Nat.zero_lt_one, by decide⟩, by decide⟩
  · decide

/-- Claim C2 (amended): for every directive whose write-side precondition
holds and — for the bit-run directive — whose value fits its declared width
(truncation to the low `bits` bits being the writer's responsibility),
performing the directive in Write mode and then in Read mode on the produced
bits reproduces the value exactly, leaving the rest of the stream intact. -/
theorem directive_roundtrip (d : Directive) (rest : List Bool)
    (hok : directive_write_ok d) (hfit : directive_value_fits d) :
    directive_read d (directive_write d ++ rest) = some (d, rest) := by
  cases d with
  | dInt value mn mx =>
    simp only [directive_read, directive_write]
    rw [serialize_int_read_append value mn mx rest hok.2.1 hok.2.2]
    rfl
  | dBits value bits =>
    simp only [directive_read, directive_write]
    rw [serialize_bits_read_append, Nat.mod_eq_of_lt hfit]
    rfl
  | dBool value =>
    simp only [directive_read, directive_write]
    rw [serialize_bool_read_append]
    rfl
  | dFloat pattern =>
    simp only [directive_read, directive_write]
    rw [serialize_float_read_append pattern rest hok]
    rfl
  | dDouble pattern =>
    simp only [directive_read, directive_write]
    rw [serialize_double_read_append pattern rest hok]
    rfl
  | dUint32 value =>
    simp only [directive_read, directive_write]
    rw [serialize_uint32_read_append value rest hok]
    rfl
  | dUint64 value =>
    simp only [directive_read, directive_write]
    rw [serialize_uint64_read_append value rest hok]
    rfl
  | dBytes data =>
    simp only [directive_read, directive_write]
    rw [serialize_bytes_read_append data rest hok]
    rfl
  | dString data buffer_size =>
    simp only [directive_read, directive_write]
    rw [serialize_string_read_append data buffer_size rest (by
      have := hok.2.1
      omega) hok.2.2]
    rfl
  | dAddress a =>
    simp only [directive_read, directive_write]
    rw [serialize_address_read_append a rest hok]
    rfl
  | dIntRelative previous current =>
    simp only [directive_read, directive_write]
    rw [serialize_int_relative_read_append previous current rest hok.1 hok.2]
    rfl
  | dAckRelative sequence ack =>
    simp only [directive_read, directive_write]
    rw [serialize_ack_relative_read_append sequence ack rest hok.1 hok.2]
    rfl
  | dSequenceRelative s1 s2 =>
    simp only [directive_read, directive_write]
    rw [serialize_sequence_relative_read_append s1 s2 rest hok.1 hok.2.1
      (sequence_relative_lift_lt s1 s2 hok.1 hok.2.2)]
    rfl

theorem directive_roundtrip_witness :
    directive_read (Directive.dInt 3 0 10)
        (directive_write (Directive.dInt 3 0 10) ++ [])
      = some (Directive.dInt 3 0 10, []) :=
  directive_roundtrip (Directive.dInt 3 0 10) []
    ⟨by decide, by decide, by decide⟩ trivial

/-- Claim C3: the delta codec tries the six buckets in strictly increasing
difference-range order and the first matching bucket determines the wire
output: for a difference `D = current - previous` in bucket `k` the output is
`k - 1` false flags, one true flag, and the bucket's bounded-integer payload of
exactly the table's bit width (0, 3, 5, 9, 13, 17); on read, the flags are
consumed in the same fixed order and the written value is recovered. -/
theorem delta_bucket_exactness (p c : Nat) (h1 : p < c) (h2 : c < 2 ^ 32) :
    (c - p = 1 →
      serialize_int_relative_write p c = [true]
        ∧ (serialize_int_relative_write p c).length = 1 + 0)
      ∧ (2 ≤ c - p → c - p ≤ 6 →
        serialize_int_relative_write p c = [false, true] ++ natToBits (c - p - 2) 3
          ∧ (serialize_int_relative_write p c).length = 2 + 3)
      ∧ (7 ≤ c - p → c - p ≤ 23 →
        serialize_int_relative_write p c
            = [false, false, true] ++ natToBits (c - p - 7) 5
          ∧ (serialize_int_relative_write p c).length = 3 + 5)
      ∧ (24 ≤ c - p → c - p ≤ 280 →
        serialize_int_relative_write p c
            = [false, false, false, true] ++ natToBits (c - p - 24) 9
          ∧ (serialize_int_relative_write p c).length = 4 + 9)
      ∧ (281 ≤ c - p → c - p ≤ 4377 →
        serialize_int_relative_write p c
            = [false, false, false, false, true] ++ natToBits (c - p - 281) 13
          ∧ (serialize_int_relative_write p c).length = 5 + 13)
      ∧ (4378 ≤ c - p → c - p ≤ 69914 →
        serialize_int_relative_write p c
            = [false, false, false, false, false, true] ++ natToBits (c - p - 4378) 17
          ∧ (serialize_int_relative_write p c).length = 6 + 17)
      ∧ (∀ rest : List Bool,
        serialize_int_relative_read (serialize_int_relative_write p c ++ rest) p
          = some (c, rest)) := by
  refine ⟨?_, ?_, ?_, ?_, ?_, ?_, ?_⟩
  · intro hd
    have hs := int_relative_write_shape1 p c h1 h2 hd
    exact ⟨hs, by rw [hs]; rfl⟩
  · intro hlo hhi
    have hs := int_relative_write_shape2 p c h1 h2 hlo hhi
    exact ⟨hs, by rw [hs]; simp [natToBits_length]⟩
  · intro hlo hhi
    have hs := int_relative_write_shape3 p c h1 h2 hlo hhi
    exact ⟨hs, by rw [hs]; simp [natToBits_length]⟩
  · intro hlo hhi
    have hs := int_relative_write_shape4 p c h1 h2 hlo hhi
    exact ⟨hs, by rw [hs]; simp [natToBits_length]⟩
  · intro hlo hhi
    have hs := int_relative_write_shape5 p c h1 h2 hlo hhi
    exact ⟨hs, by rw [hs]; simp [natToBits_length]⟩
  · intro hlo hhi
    have hs := int_relative_write_shape6 p c h1 h2 hlo hhi
    exact ⟨hs, by rw [hs]; simp [natToBits_length]⟩
  · intro rest
    exact serialize_int_relative_read_append p c rest h1 h2

theorem delta_bucket_exactness_witness :
    serialize_int_relative_write 0 7 = [false, false, true] ++ natToBits 0 5
      ∧ (serialize_int_relative_write 0 7).length = 3 + 5 :=
  (delta_bucket_exactness 0 7 (by decide) (by decide)).2.2.1 (by decide) (by decide)

/-- Claim C4, counterexample: at `previous = 0`, `current = 70000` (difference
70000 > 69914, the fallback path), the delta codec emits the six false flags
and the raw 32-bit value — 6 + 32 = 38 bits in total, not the 39 the claim
states. -/
theorem delta_fallback_cost_counterexample :
    0 < (70000 : Nat) ∧ (70000 : Nat) < 2 ^ 32 ∧ 69914 < 70000 - 0
      ∧ serialize_int_relative_write 0 70000
          = List.replicate 6 false ++ natToBits 70000 32
      ∧ (serialize_int_relative_write 0 70000).length = 38
      ∧ (serialize_int_relative_write 0 70000).length ≠ 39 := by
  refine ⟨by decide, by decide, by decide, ?_, by decide, by decide⟩
  exact int_relative_write_shape_fallback 0 70000 (by decide) (by decide) (by decide)

/-- Claim C4 (amended): for every difference above 69914 the delta codec
writes all six escape flags as false followed by the raw 32-bit current value,
and the total cost of this fallback encoding is 38 bits (the 6 flags plus the
32-bit raw value). -/
theorem delta_fallback_cost (p c : Nat) (h1 : p < c) (h2 : c < 2 ^ 32)
    (hd : 69914 < c - p) :
    serialize_int_relative_write p c = List.replicate 6 false ++ natToBits c 32
      ∧ (serialize_int_relative_write p c).length = 38 := by
  have hs := int_relative_write_shape_fallback p c h1 h2 hd
  refine ⟨hs, ?_⟩
  rw [hs]
  simp [natToBits_length]

theorem delta_fallback_cost_witness :
    serialize_int_relative_write 5 80000
        = List.replicate 6 false ++ natToBits 80000 32
      ∧ (serialize_int_relative_write 5 80000).length = 38 :=
  delta_fallback_cost 5 80000 (by decide) (by decide) (by decide)

/-- Claim C5: for every bounded-integer directive with `min < max` executed in
Read mode, a successful decode always lies in `[min,max]`, and whenever the
stream's bounded-integer primitive delivers a value outside `[min,max]` (the
delivered value is `min` plus the decoded pattern, so out of range means above
`max`), the directive returns a decode failure to its caller instead of an
out-of-range success. -/
theorem bounded_int_read_range_rejection :
    (∀ (s : List Bool) (min max value : Int) (rest : List Bool), min < max →
        serialize_int_read s min max = some (value, rest) →
        min ≤ value ∧ value ≤ max)
      ∧ (∀ (s : List Bool) (min max : Int) (pattern : Nat) (rest : List Bool),
          min < max →
          readBits s (bitsRequired (max - min).toNat) = some (pattern, rest) →
          max < min + (pattern : Int) →
          serialize_int_read s min max = none) :=
  ⟨fun s min max value rest _ h =>
      serialize_int_read_some_in_range s min max value rest h,
    fun s min max pattern rest _ hr hout =>
      serialize_int_read_none_of_overflow s min max pattern rest hr hout⟩

theorem bounded_int_read_range_rejection_witness :
    serialize_int_read [true, true] 0 2 = none :=
  bounded_int_read_range_rejection.2 [true, true] 0 2 3 [] (by decide)
    (by decide) (by decide)

/-- Claim C6: the string directive's write-side assertion rejects a string of
length exactly `buffer_size - 1` (here `"abc"` with `buffer_size = 4`), even
though, with the assertion compiled out, that string round-trips exactly (its
length fits the length field's range `[0, buffer_size - 1]` and the read-side
terminator lands inside the buffer); a decode attempt claiming a length of at
least `buffer_size` (here a length field decoding to 6 with `buffer_size = 6`)
fails, and every successful decode's length is at most `buffer_size - 1`, so
the reader never writes past the end of the buffer. -/
theorem string_boundary_behaviour :
    ¬ serialize_string_write_assert [97, 98, 99] 4
      ∧ serialize_string_read (serialize_string_write [97, 98, 99] 4 ++ []) 4
          = some ([97, 98, 99], [])
      ∧ serialize_string_read (natToBits 6 3 ++ [true, true, false]) 6 = none
      ∧ (∀ (s : List Bool) (buffer_size : Int) (data : List Nat) (rest : List Bool),
          serialize_string_read s buffer_size = some (data, rest) →
          (data.length : Int) ≤ buffer_size - 1) := by
  refine ⟨?_, by decide, by decide, serialize_string_read_some_length⟩
  unfold serialize_string_write_assert
  decide

theorem string_boundary_behaviour_witness :
    (([97] : List Nat).length : Int) ≤ 2 - 1 :=
  string_boundary_behaviour.2.2.2 (serialize_string_write [97] 2 ++ []) 2 [97] []
    (by decide)

/-- Claim C7: the ack-relative codec computes `delta = sequence - ack` when
`ack < sequence` and `delta = sequence + 65536 - ack` otherwise; a delta in
`[1,64]` is written as a true flag followed by the delta as a bounded integer
in `[1,64]`, any other delta as a false flag followed by the raw 16-bit ack;
write followed by read restores the ack for every 16-bit pair; in particular
`sequence = 10`, `ack = 65530` has delta 16 and takes the in-range path,
`sequence = 100`, `ack = 0` has delta 100 and takes the raw path, and both
round-trip. -/
theorem ack_relative_behaviour :
    (∀ (sequence ack : Nat) (rest : List Bool),
        sequence < 65536 → ack < 65536 →
        serialize_ack_relative_read
          (serialize_ack_relative_write sequence ack ++ rest) sequence
          = some (ack, rest))
      ∧ (∀ sequence ack : Nat, ack < sequence →
          ack_delta sequence ack = sequence - ack)
      ∧ (∀ sequence ack : Nat, ¬ ack < sequence →
          ack_delta sequence ack = sequence + 65536 - ack)
      ∧ (∀ sequence ack : Nat, ack_delta sequence ack ≤ 64 →
          serialize_ack_relative_write sequence ack
            = serialize_bool_write true
                ++ serialize_int_write (ack_delta sequence ack : Int) 1 64)
      ∧ (∀ sequence ack : Nat, ¬ ack_delta sequence ack ≤ 64 →
          serialize_ack_relative_write sequence ack
            = serialize_bool_write false ++ serialize_bits_write ack 16)
      ∧ ack_delta 10 65530 = 16 ∧ ack_delta 10 65530 ≤ 64
      ∧ ack_delta 100 0 = 100 ∧ ¬ ack_delta 100 0 ≤ 64
      ∧ serialize_ack_relative_read (serialize_ack_relative_write 10 65530 ++ []) 10
          = some (65530, [])
      ∧ serialize_ack_relative_read (serialize_ack_relative_write 100 0 ++ []) 100
          = some (0, []) := by
  refine ⟨serialize_ack_relative_read_append, ?_, ?_, ?_, ?_,
    by decide, by decide, by decide, by decide, by decide, by decide⟩
  · intro s a h
    unfold ack_delta
    rw [if_pos h]
  · intro s a h
    unfold ack_delta
    rw [if_neg h]
  · intro s a h
    unfold serialize_ack_relative_write
    rw [decide_eq_true h, if_pos h]
  · intro s a h
    unfold serialize_ack_relative_write
    rw [decide_eq_false h, if_neg h]

theorem ack_relative_behaviour_witness :
    serialize_ack_relative_read (serialize_ack_relative_write 7 3 ++ []) 7
      = some (3, []) :=
  ack_relative_behaviour.1 7 3 [] (by decide) (by decide)

/-- Claim C8: whenever the lifted value `sequence2 + (65536 if
sequence1 > sequence2 else 0)` is strictly greater than `sequence1`, the
sequence-relative codec's write followed by its read with the same `sequence1`
restores `sequence2`; in particular `sequence1 = 65530`, `sequence2 = 10`
round-trips to 10. -/
theorem sequence_relative_roundtrip (s1 s2 : Nat) (rest : List Bool)
    (h1 : s1 < 65536) (h2 : s2 < 65536)
    (hlift : s1 < sequence_relative_lift s1 s2) :
    serialize_sequence_relative_read
        (serialize_sequence_relative_write s1 s2 ++ rest) s1 = some (s2, rest)
      ∧ serialize_sequence_relative_read
          (serialize_sequence_relative_write 65530 10 ++ []) 65530
          = some (10, []) :=
  ⟨serialize_sequence_relative_read_append s1 s2 rest h1 h2 hlift, by decide⟩

theorem sequence_relative_roundtrip_witness :
    serialize_sequence_relative_read
        (serialize_sequence_relative_write 5 9 ++ []) 5 = some (9, []) :=
  (sequence_relative_roundtrip 5 9 [] (by decide) (by decide) (by decide)).1

/-- Claim C9: the sequence-relative codec's write mode has the unstated
precondition `sequence1 ≠ sequence2`: when the two are equal the lifted value
equals `sequence1` itself, so the delta codec's write-side assertion
`previous < current` fails; for every 16-bit pair with `sequence1 ≠ sequence2`
the lifted value is strictly greater than `sequence1` and the assertion
holds. -/
theorem sequence_relative_equal_inputs_assert :
    (∀ s1 s2 : Nat, s1 = s2 →
        sequence_relative_lift s1 s2 = s1
          ∧ ¬ int_relative_write_assert s1 (sequence_relative_lift s1 s2))
      ∧ (∀ s1 s2 : Nat, s1 < 65536 → s2 < 65536 → s1 ≠ s2 →
          int_relative_write_assert s1 (sequence_relative_lift s1 s2)) := by
  constructor
  · intro s1 s2 h
    subst h
    unfold sequence_relative_lift int_relative_write_assert
    simp
  · intro s1 s2 h1 h2 hne
    exact sequence_relative_lift_lt s1 s2 h1 hne

theorem sequence_relative_equal_inputs_assert_witness :
    sequence_relative_lift 5 5 = 5
      ∧ ¬ int_relative_write_assert 5 (sequence_relative_lift 5 5) :=
  sequence_relative_equal_inputs_assert.1 5 5 rfl

/-- Claim C10: the ack-relative codec's write-side assertions hold for every
16-bit pair, including `ack = sequence`: the computed delta is always in
`[1,65536]` and `uint16_t( sequence - ack_delta )` recovers the ack; when
`ack = sequence` the delta is 65536, which exceeds 64, so the raw 16-bit path
is taken, and the pair still round-trips. -/
theorem ack_relative_write_asserts_hold :
    (∀ sequence ack : Nat, sequence < 65536 → ack < 65536 →
        ack_relative_write_assert sequence ack
          ∧ 1 ≤ ack_delta sequence ack ∧ ack_delta sequence ack ≤ 65536)
      ∧ (∀ sequence : Nat, sequence < 65536 →
          ack_delta sequence sequence = 65536
            ∧ ¬ ack_delta sequence sequence ≤ 64)
      ∧ (∀ (sequence : Nat) (rest : List Bool), sequence < 65536 →
          serialize_ack_relative_read
            (serialize_ack_relative_write sequence sequence ++ rest) sequence
            = some (sequence, rest)) := by
  refine ⟨?_, ?_, ?_⟩
  · intro s a hs ha
    exact ⟨⟨ack_delta_pos s a ha, ack_delta_uint16_recovers s a hs ha⟩,
      ack_delta_pos s a ha, ack_delta_le s a hs⟩
  · intro s hs
    unfold ack_delta
    rw [if_neg (by omega : ¬ s < s)]
    omega
  · intro s rest hs
    exact serialize_ack_relative_read_append s s rest hs hs

theorem ack_relative_write_asserts_hold_witness :
    serialize_ack_relative_read (serialize_ack_relative_write 9 9 ++ []) 9
      = some (9, []) :=
  ack_relative_write_asserts_hold.2.2 9 [] (by decide)

end Yojimbo
